import Mathlib

/-!
Shallow embedding of `backup_data.py`, centred on `MyEventHandler.on_created`:
the destination-path construction, the size-polling stabilization wait
(baseline `file_size_old = 0`, `time.sleep(1)` between polls, `timeout = 60`),
the parent-directory creation that precedes the wait, and the guarded
`shutil.copy2` whose only handled exception is `FileNotFoundError`.
-/

namespace BackupData

/-- A filesystem path, as the list of its parts (`pathlib.PurePath.parts`). -/
abbrev FsPath := List String

/-- A filesystem entry: a regular file with its byte content, modification
time and permission bits, or a directory. -/
inductive Entry where
  | file (content : List Nat) (mtime : Nat) (mode : Nat)
  | dir
deriving DecidableEq

/-- A filesystem: a map from paths to entries; `none` means absent. -/
abbrev FS := FsPath → Option Entry

/-- Destination-path construction of `on_created`: the parts of `src` past
`len(self.source.parts)` are joined, in order, onto `self.destination`.
A pure function of the three paths; it never consults the filesystem. -/
def mapPath (source destination : FsPath) (src : FsPath) : FsPath :=
  destination ++ src.drop source.length

/-- `dst.parent.mkdir(parents=True)`: every missing prefix of `p` (missing
ancestors and `p` itself) becomes a directory; existing entries untouched. -/
def mkdirp (fs : FS) (p : FsPath) : FS :=
  fun q => if q <+: p ∧ fs q = none then some .dir else fs q

/-- `shutil.copy2 src dst`: the destination entry becomes the source entry
(bytes, modification time, permission bits); nothing else changes. -/
def copy2 (fs : FS) (src dst : FsPath) : FS :=
  fun q => if q = dst then fs src else fs q

/-- OS-level error kinds relevant to the handler. In the source all of these
are `OSError`s; `FileNotFoundError` and `PermissionError` are subclasses. -/
inductive ExcKind where
  | fileNotFound
  | permission
  | diskFull
deriving DecidableEq

/-- One poll of the source file inside the wait loop of `on_created`: either
`open(src, "rb")` plus `os.path.getsize(src)` succeed and yield a size, or
they raise an `OSError` of some kind. The oracle is indexed by the number of
polls already made, modelling the file as seen over time. -/
inductive PollResult where
  | ok (size : Nat)
  | err (e : ExcKind)
deriving DecidableEq

/-- Result of the stabilization wait. -/
inductive CompletionResult where
  | stable
  | timedOut
deriving DecidableEq

/-- State of the wait loop of `on_created`: `idx` polls made so far, `time`
elapsed since `t0 = 0`, `sizeOld` the baseline (`file_size_old`, initialised
to `0` before the first poll), plus counters for successful size reads,
sleeps, and warning-logged retries after an `OSError`. -/
structure DetState where
  idx : Nat
  time : Nat
  sizeOld : Nat
  reads : Nat
  sleeps : Nat
  warnLogs : Nat
deriving DecidableEq

/-- One iteration of the wait loop.  On a successful read equal to the
baseline the loop breaks with `stable` (no sleep, no timeout check, exactly
as the `break` in the source skips both).  On a changed size the baseline is
replaced and the loop sleeps `p`; on an `OSError` a warning is logged and the
loop sleeps `p`; in both cases the `time.time() - t0 > timeout` check then
decides between timing out and continuing. -/
def detStep (polls : Nat → PollResult) (p W : Nat) (s : DetState) :
    DetState ⊕ (CompletionResult × DetState) :=
  match polls s.idx with
  | .ok n =>
    if n = s.sizeOld then
      .inr (.stable, { s with idx := s.idx + 1, reads := s.reads + 1 })
    else
      let s' : DetState :=
        { s with idx := s.idx + 1, reads := s.reads + 1, sizeOld := n,
                 time := s.time + p, sleeps := s.sleeps + 1 }
      if W < s'.time then .inr (.timedOut, s') else .inl s'
  | .err _ =>
    let s' : DetState :=
      { s with idx := s.idx + 1, time := s.time + p, sleeps := s.sleeps + 1,
               warnLogs := s.warnLogs + 1 }
    if W < s'.time then .inr (.timedOut, s') else .inl s'

/-- The wait loop, driven by fuel.  Whenever `0 < p` the fuel `W + 2` used by
`awaitStable` is never exhausted, since every continuing iteration advances
`time` by `p` and the loop stops as soon as `W < time`. -/
def detRun (polls : Nat → PollResult) (p W : Nat) :
    Nat → DetState → CompletionResult × DetState
  | 0, s => (.timedOut, s)
  | fuel + 1, s =>
    match detStep polls p W s with
    | .inr r => r
    | .inl s' => detRun polls p W fuel s'

/-- The stabilization wait (`while True:` loop of `on_created`), with poll
interval `p` and maximum wait `W`; the source hard-codes `p = 1`, `W = 60`. -/
def awaitStable (polls : Nat → PollResult) (p W : Nat) :
    CompletionResult × DetState :=
  detRun polls p W (W + 2) ⟨0, 0, 0, 0, 0, 0⟩

/-- Outcome of one creation event, in the spec's vocabulary; `ignored` is the
source's behaviour for an event whose path is not a regular file. -/
inductive CopyOutcome where
  | copied
  | skippedAlreadyExists
  | skippedTimedOut
  | failed (e : ExcKind)
  | ignored
deriving DecidableEq

/-- How one invocation of the handler ends: normally with an outcome, or with
an exception escaping the handler. -/
inductive HandlerResult where
  | normal (o : CopyOutcome)
  | raised (e : ExcKind)
deriving DecidableEq

/-- Value of the last successful size read strictly before poll `n`, or `0`
(the initial `file_size_old`) if there was none: the loop baseline. -/
def lastOkBefore (polls : Nat → PollResult) : Nat → Nat
  | 0 => 0
  | n + 1 =>
    match polls n with
    | .ok s => s
    | .err _ => lastOkBefore polls n

/-- Number of successful size reads among the first `n` polls. -/
def countOk (polls : Nat → PollResult) : Nat → Nat
  | 0 => 0
  | n + 1 => countOk polls n + (match polls n with | .ok _ => 1 | .err _ => 0)

/-- Number of failed polls among the first `n` polls. -/
def countErr (polls : Nat → PollResult) : Nat → Nat
  | 0 => 0
  | n + 1 => countErr polls n + (match polls n with | .ok _ => 0 | .err _ => 1)

/-- The file never stabilizes: every successful size read differs from the
baseline in force at that poll (the last earlier read, or the initial `0`).
Covers both a size that keeps changing and polls that keep failing. -/
def NeverStable (polls : Nat → PollResult) : Prop :=
  ∀ n s, polls n = .ok s → s ≠ lastOkBefore polls n

/-- `MyEventHandler.on_created`, translated clause by clause from the source:
build `dst` from the parts of `src` past the source root; if `src` is a
regular file and `dst` exists, log and skip; otherwise create `dst`'s missing
parent directories, run the stabilization wait with `sleep 1` and
`timeout = 60`, and, if the wait did not time out, attempt `shutil.copy2`,
catching only `FileNotFoundError`.  `copyFail` injects the environmental
failure, if any, that the copy attempt would raise; any path that is not a
regular file (directories included) is ignored. -/
def on_created (source destination : FsPath) (polls : Nat → PollResult)
    (copyFail : Option ExcKind) (fs : FS) (src : FsPath) :
    HandlerResult × FS :=
  let dst := mapPath source destination src
  match fs src with
  | some (.file _ _ _) =>
    if (fs dst).isSome then
      (.normal .skippedAlreadyExists, fs)
    else
      let fs1 := if (fs dst.dropLast).isSome then fs else mkdirp fs dst.dropLast
      match (awaitStable polls 1 60).1 with
      | .timedOut => (.normal .skippedTimedOut, fs1)
      | .stable =>
        match copyFail with
        | none => (.normal .copied, copy2 fs1 src dst)
        | some .fileNotFound => (.normal (.failed .fileNotFound), fs1)
        | some e => (.raised e, fs1)
  | _ => (.normal .ignored, fs)

/-- A file observed at size `0` on every poll (a file created empty). -/
def zeroSizePolls : Nat → PollResult := fun _ => .ok 0

/-- A file whose every poll raises `PermissionError` (writer holds a lock). -/
def allErrPolls : Nat → PollResult := fun _ => .err .permission

/-- A file observed at the constant nonzero size `5`. -/
def constPolls : Nat → PollResult := fun _ => .ok 5

/-- A file created empty and growing forever: observed size `10 * n` on
poll `n`, so the first read is `0` and every later read is larger. -/
def growPolls : Nat → PollResult := fun n => .ok (10 * n)

/-- A concrete filesystem: source root `s` holding file `s/f` and empty
directory `s/sub`; destination root `d` exists and is empty. -/
def demoFs : FS := fun q =>
  if q = ([] : FsPath) then some .dir
  else if q = ["s"] then some .dir
  else if q = ["s", "f"] then some (.file [104, 105] 10 420)
  else if q = ["s", "sub"] then some .dir
  else if q = ["d"] then some .dir
  else none

/-- Like `demoFs`, but the destination already holds a file `d/f` with
different content from `s/f`. -/
def dupFs : FS := fun q =>
  if q = ["d", "f"] then some (.file [9] 1 2) else demoFs q


/-- A positive baseline can only come from an actual earlier successful read. -/
theorem lastOkBefore_pos (polls : Nat → PollResult) :
    ∀ n, 0 < lastOkBefore polls n →
      ∃ j, j < n ∧ polls j = .ok (lastOkBefore polls n) := by
  intro n
  induction n with
  | zero => intro h; simp [lastOkBefore] at h
  | succ n ih =>
    intro h
    cases hp : polls n with
    | ok v =>
      refine ⟨n, Nat.lt_succ_self n, ?_⟩
      simp [lastOkBefore, hp] at h ⊢
    | err e =>
      rw [lastOkBefore, hp] at h ⊢
      obtain ⟨j, hj, hje⟩ := ih h
      exact ⟨j, Nat.lt_succ_of_lt hj, hje⟩

/-- Successful-read counts are monotone in the number of polls. -/
theorem countOk_mono (polls : Nat → PollResult) (n : Nat) :
    countOk polls n ≤ countOk polls (n + 1) := by
  rw [countOk]
  omega

/-- A successful poll below `n` makes the count of successful reads positive. -/
theorem countOk_pos (polls : Nat → PollResult) :
    ∀ n j v, j < n → polls j = .ok v → 1 ≤ countOk polls n := by
  intro n
  induction n with
  | zero => intro j v h; omega
  | succ n ih =>
    intro j v hj hv
    rcases Nat.lt_succ_iff_lt_or_eq.mp hj with h | h
    · have := ih j v h hv
      have := countOk_mono polls n
      omega
    · subst h
      simp [countOk, hv]

/-- A successful poll at index `n` bumps the successful-read count. -/
theorem countOk_succ_ok (polls : Nat → PollResult) (n v : Nat)
    (h : polls n = .ok v) : countOk polls (n + 1) = countOk polls n + 1 := by
  simp [countOk, h]

/-- When every poll fails, the failed-poll count equals the poll count. -/
theorem countErr_all (polls : Nat → PollResult)
    (h : ∀ n, ∃ e, polls n = .err e) : ∀ n, countErr polls n = n := by
  intro n
  induction n with
  | zero => rfl
  | succ n ih =>
    obtain ⟨e, he⟩ := h n
    simp [countErr, he, ih]

/-- Loop invariant, stable exits: when the wait loop of `on_created` breaks
with `stable`, the size just read equals the baseline in force — the last
earlier successful read, or the initial `file_size_old = 0` — at least one
poll was made, the read counter counts the successful polls, and every poll
but the breaking one was followed by a sleep. -/
theorem detRun_stable_spec (polls : Nat → PollResult) (p W : Nat) :
    ∀ fuel s s₂, s.sleeps = s.idx →
      s.sizeOld = lastOkBefore polls s.idx →
      s.reads = countOk polls s.idx →
      detRun polls p W fuel s = (.stable, s₂) →
      1 ≤ s₂.idx ∧
      polls (s₂.idx - 1) = .ok (lastOkBefore polls (s₂.idx - 1)) ∧
      s₂.reads = countOk polls s₂.idx ∧
      s₂.sleeps = s₂.idx - 1 := by
  intro fuel
  induction fuel with
  | zero =>
    intro s s₂ _ _ _ h
    exact absurd (congrArg Prod.fst h) (by simp [detRun])
  | succ fuel ih =>
    intro s s₂ h1 h2 h3 h
    rw [detRun] at h
    cases hp : polls s.idx with
    | ok n =>
      by_cases hn : n = s.sizeOld
      · simp only [detStep, hp, hn, if_pos] at h
        have hs : ({ s with idx := s.idx + 1, reads := s.reads + 1 } : DetState) = s₂ := by
          simpa using h
        subst hs
        refine ⟨by simp, ?_, ?_, ?_⟩
        · simpa [hn, h2] using hp
        · simp [countOk_succ_ok polls s.idx n hp, h3]
        · simp [h1]
      · by_cases hw : W < s.time + p
        · simp [detStep, hp, hn, hw] at h
        · simp only [detStep, hp, hn, hw, if_neg, if_false, ite_false] at h
          refine ih _ s₂ ?_ ?_ ?_ h
          · simp [h1]
          · simp [lastOkBefore, hp]
          · simp [countOk_succ_ok polls s.idx n hp, h3]
    | err e =>
      by_cases hw : W < s.time + p
      · simp [detStep, hp, hw] at h
      · simp only [detStep, hp, hw, if_neg, if_false, ite_false] at h
        refine ih _ s₂ ?_ ?_ ?_ h
        · simp [h1]
        · simp [lastOkBefore, hp, h2]
        · simp [countOk, hp, h3]


/-- Loop invariant, timed-out exits: when the wait loop of `on_created`
exits through the `time.time() - t0 > timeout` check, the elapsed time has
just crossed `W` (by at most one poll interval), equals poll count times
poll interval, every poll was followed by a sleep, and the warning counter
counts the failed polls. -/
theorem detRun_timedOut_spec (polls : Nat → PollResult) (p W : Nat) :
    ∀ fuel s s₂, s.sleeps = s.idx → s.time = s.idx * p →
      s.warnLogs = countErr polls s.idx →
      s.time ≤ W → W < s.time + fuel * p →
      detRun polls p W fuel s = (.timedOut, s₂) →
      W < s₂.time ∧ s₂.time ≤ W + p ∧ s₂.time = s₂.idx * p ∧
      s₂.sleeps = s₂.idx ∧ s₂.warnLogs = countErr polls s₂.idx := by
  intro fuel
  induction fuel with
  | zero =>
    intro s s₂ _ _ _ hle hbud h
    omega
  | succ fuel ih =>
    intro s s₂ h1 h2 h3 hle hbud h
    rw [detRun] at h
    rw [Nat.succ_mul] at hbud
    cases hp : polls s.idx with
    | ok n =>
      by_cases hn : n = s.sizeOld
      · simp [detStep, hp, hn] at h
      · by_cases hw : W < s.time + p
        · simp only [detStep, hp, hn, hw, if_neg, if_true, ite_true, if_pos] at h
          have hs : ({ s with
              idx := s.idx + 1, reads := s.reads + 1, sizeOld := n,
              time := s.time + p, sleeps := s.sleeps + 1 } : DetState) = s₂ := by
            simpa using h
          subst hs
          refine ⟨by simpa using hw, by simp; omega, ?_, by simp [h1], ?_⟩
          · simp [Nat.succ_mul]
            omega
          · simp [countErr, hp, h3]
        · simp only [detStep, hp, hn, hw, if_neg, if_false, ite_false] at h
          refine ih _ s₂ (by simp [h1]) ?_ (by simp [countErr, hp, h3]) (by simpa using hw) ?_ h
          · simp [Nat.succ_mul]
            omega
          · simp
            omega
    | err e =>
      by_cases hw : W < s.time + p
      · simp only [detStep, hp, hw, if_true, ite_true, if_pos] at h
        have hs : ({ s with
            idx := s.idx + 1, time := s.time + p, sleeps := s.sleeps + 1,
            warnLogs := s.warnLogs + 1 } : DetState) = s₂ := by
          simpa using h
        subst hs
        refine ⟨by simpa using hw, by simp; omega, ?_, by simp [h1], ?_⟩
        · simp [Nat.succ_mul]
          omega
        · simp [countErr, hp, h3]
      · simp only [detStep, hp, hw, if_false, ite_false] at h
        refine ih _ s₂ (by simp [h1]) ?_ (by simp [countErr, hp, h3]) (by simpa using hw) ?_ h
        · simp [Nat.succ_mul]
          omega
        · simp
          omega

/-- If no successful read ever equals the baseline in force, the wait loop
can only exit by timing out. -/
theorem detRun_neverStable (polls : Nat → PollResult) (p W : Nat)
    (hns : NeverStable polls) :
    ∀ fuel s r s₂, s.sizeOld = lastOkBefore polls s.idx →
      detRun polls p W fuel s = (r, s₂) → r = .timedOut := by
  intro fuel
  induction fuel with
  | zero =>
    intro s r s₂ _ h
    rw [detRun] at h
    exact (congrArg Prod.fst h).symm
  | succ fuel ih =>
    intro s r s₂ h2 h
    rw [detRun] at h
    cases hp : polls s.idx with
    | ok n =>
      by_cases hn : n = s.sizeOld
      · exact absurd (h2 ▸ hn) (hns s.idx n hp)
      · by_cases hw : W < s.time + p
        · simp only [detStep, hp, hn, hw, if_neg, if_pos, if_true, ite_true] at h
          exact (congrArg Prod.fst h).symm
        · simp only [detStep, hp, hn, hw, if_neg, if_false, ite_false] at h
          exact ih _ r s₂ (by simp [lastOkBefore, hp]) h
    | err e =>
      by_cases hw : W < s.time + p
      · simp only [detStep, hp, hw, if_pos, if_true, ite_true] at h
        exact (congrArg Prod.fst h).symm
      · simp only [detStep, hp, hw, if_false, ite_false] at h
        exact ih _ r s₂ (by simp [lastOkBefore, hp, h2]) h


/-- Claim C1, counterexample: a regular file observed at size 0 is declared
stable after a single size read and no sleep, because the baseline
`file_size_old` is initialised to `0` before the first read — refuting
"for every file (of any size, including size 0) at least two size reads
separated by a sleep occur before Stable is returned". -/
theorem claim_C1_counterexample :
    (awaitStable zeroSizePolls 1 60).1 = .stable ∧
    (awaitStable zeroSizePolls 1 60).2.reads = 1 ∧
    (awaitStable zeroSizePolls 1 60).2.sleeps = 0 := by decide

/-- Claim C1, amended: for every file whose observed sizes are all nonzero,
the wait returns Stable only after at least two size reads separated by at
least one sleep of `pollInterval`, and the read that triggers Stable equals
the previous read (the baseline).  A file observed at size 0 instead matches
the initial baseline `file_size_old = 0` and is declared Stable after a
single read with no sleep. -/
theorem claim_C1 (polls : Nat → PollResult) (p W : Nat)
    (hpos : ∀ n v, polls n = .ok v → 0 < v)
    (hst : (awaitStable polls p W).1 = .stable) :
    2 ≤ (awaitStable polls p W).2.reads ∧
    1 ≤ (awaitStable polls p W).2.sleeps ∧
    polls ((awaitStable polls p W).2.idx - 1)
      = .ok (lastOkBefore polls ((awaitStable polls p W).2.idx - 1)) := by
  rcases hE : awaitStable polls p W with ⟨r, s₂⟩
  simp only [Prod.fst, Prod.snd] at hst ⊢
  rw [hE] at hst
  simp only [Prod.fst] at hst
  subst hst
  rw [awaitStable] at hE
  obtain ⟨hidx, hlast, hreads, hsleeps⟩ :=
    detRun_stable_spec polls p W (W + 2) ⟨0, 0, 0, 0, 0, 0⟩ s₂ rfl rfl rfl hE
  have hv : 0 < lastOkBefore polls (s₂.idx - 1) :=
    hpos (s₂.idx - 1) _ hlast
  obtain ⟨j, hj, hje⟩ := lastOkBefore_pos polls (s₂.idx - 1) hv
  have hidx2 : 2 ≤ s₂.idx := by omega
  have hsp : s₂.idx - 1 + 1 = s₂.idx := by omega
  have hco : countOk polls s₂.idx = countOk polls (s₂.idx - 1) + 1 := by
    rw [← hsp]
    exact countOk_succ_ok polls (s₂.idx - 1) _ hlast
  have hc1 : 1 ≤ countOk polls (s₂.idx - 1) :=
    countOk_pos polls (s₂.idx - 1) j _ hj hje
  exact ⟨by omega, by omega, hlast⟩

/-- Claim C1, witness: a file constantly observed at nonzero size 5
satisfies the hypotheses, and the amended claim holds for it. -/
theorem claim_C1_witness :
    (∀ n v, constPolls n = .ok v → 0 < v) ∧
    (awaitStable constPolls 1 60).1 = .stable ∧
    2 ≤ (awaitStable constPolls 1 60).2.reads ∧
    1 ≤ (awaitStable constPolls 1 60).2.sleeps ∧
    constPolls ((awaitStable constPolls 1 60).2.idx - 1)
      = .ok (lastOkBefore constPolls ((awaitStable constPolls 1 60).2.idx - 1)) :=
  ⟨fun n v h => by simp [constPolls] at h; omega, by decide,
    (claim_C1 constPolls 1 60 (fun n v h => by simp [constPolls] at h; omega)
      (by decide)).1,
    (claim_C1 constPolls 1 60 (fun n v h => by simp [constPolls] at h; omega)
      (by decide)).2.1,
    (claim_C1 constPolls 1 60 (fun n v h => by simp [constPolls] at h; omega)
      (by decide)).2.2⟩


/-- A nonempty path is never a prefix of its own parent. -/
theorem not_prefix_dropLast {l : FsPath} (h : l ≠ []) : ¬ l <+: l.dropLast := by
  intro hpre
  have h1 := hpre.length_le
  have h2 : l.dropLast.length = l.length - 1 := List.length_dropLast l
  have h3 : 0 < l.length := List.length_pos.mpr h
  omega

/-- `mkdir(parents=True)` leaves every existing entry unchanged. -/
theorem mkdirp_of_some (fs : FS) (P q : FsPath) (e : Entry) (h : fs q = some e) :
    mkdirp fs P q = some e := by
  simp [mkdirp, h]

/-- `mkdir(parents=True)` touches nothing outside the prefixes of its argument. -/
theorem mkdirp_outside (fs : FS) (P q : FsPath) (h : ¬ q <+: P) :
    mkdirp fs P q = fs q := by
  simp [mkdirp, h]

/-- After `mkdir(parents=True)` every prefix of the created path exists. -/
theorem mkdirp_prefix_isSome (fs : FS) (P q : FsPath) (h : q <+: P) :
    (mkdirp fs P q).isSome := by
  by_cases h2 : fs q = none
  · simp [mkdirp, h, h2]
  · simp [mkdirp, h2, Option.isSome_iff_ne_none]

/-- A never-stabilizing file makes the stabilization wait time out. -/
theorem awaitStable_neverStable (polls : Nat → PollResult) (p W : Nat)
    (hns : NeverStable polls) : (awaitStable polls p W).1 = .timedOut := by
  rcases hE : awaitStable polls p W with ⟨r, s₂⟩
  rw [awaitStable] at hE
  have := detRun_neverStable polls p W hns (W + 2) ⟨0, 0, 0, 0, 0, 0⟩ r s₂ rfl hE
  simpa using this

/-- Timing of a timed-out stabilization wait, from the initial loop state:
the elapsed time lies in `(W, W + p]`, and the sleep and warning counters
relate to the poll count as in `detRun_timedOut_spec`. -/
theorem awaitStable_timedOut_spec (polls : Nat → PollResult) (p W : Nat)
    (hp : 0 < p) (hto : (awaitStable polls p W).1 = .timedOut) :
    W < (awaitStable polls p W).2.time ∧
    (awaitStable polls p W).2.time ≤ W + p ∧
    (awaitStable polls p W).2.time = (awaitStable polls p W).2.idx * p ∧
    (awaitStable polls p W).2.sleeps = (awaitStable polls p W).2.idx ∧
    (awaitStable polls p W).2.warnLogs = countErr polls (awaitStable polls p W).2.idx := by
  rcases hE : awaitStable polls p W with ⟨r, s₂⟩
  rw [hE] at hto
  simp only [Prod.fst] at hto
  subst hto
  rw [awaitStable] at hE
  have h1 : W + 2 ≤ (W + 2) * p := Nat.le_mul_of_pos_right _ hp
  have := detRun_timedOut_spec polls p W (W + 2) ⟨0, 0, 0, 0, 0, 0⟩ s₂ rfl
    (by simp) rfl (Nat.zero_le W) (by omega) hE
  simpa using this


/-- `shutil.copy2` reads its source entry from the pre-copy filesystem. -/
theorem copy2_self (g : FS) (src dst : FsPath) : copy2 g src dst src = g src := by
  simp [copy2, ite_self]

/-- After `shutil.copy2`, the destination holds the source entry. -/
theorem copy2_at_dst (g : FS) (src dst : FsPath) : copy2 g src dst dst = g src := by
  simp [copy2]

/-- `shutil.copy2` changes no path other than the destination. -/
theorem copy2_at_other (g : FS) (src dst q : FsPath) (h : q ≠ dst) :
    copy2 g src dst q = g q := by
  simp [copy2, h]

/-- Reduction of `on_created` for a regular file with absent destination
whose stabilization wait times out: outcome `skippedTimedOut`, and the only
filesystem change is the parent-directory creation that preceded the wait. -/
theorem on_created_timeout_eq (source destination : FsPath)
    (polls : Nat → PollResult) (copyFail : Option ExcKind) (fs : FS)
    (src : FsPath) (c : List Nat) (t m : Nat)
    (hsrc : fs src = some (.file c t m))
    (hdst : fs (mapPath source destination src) = none)
    (hto : (awaitStable polls 1 60).1 = .timedOut) :
    on_created source destination polls copyFail fs src
      = (.normal .skippedTimedOut,
         if (fs (mapPath source destination src).dropLast).isSome then fs
         else mkdirp fs (mapPath source destination src).dropLast) := by
  simp [on_created, hsrc, hdst, hto]

/-- Reduction of `on_created` for a regular file with absent destination
whose stabilization wait succeeds and whose copy raises nothing: outcome
`copied`, with the copy performed over the parent-creating step. -/
theorem on_created_stable_copy (source destination : FsPath)
    (polls : Nat → PollResult) (fs : FS) (src : FsPath) (c : List Nat) (t m : Nat)
    (hsrc : fs src = some (.file c t m))
    (hdst : fs (mapPath source destination src) = none)
    (hst : (awaitStable polls 1 60).1 = .stable) :
    on_created source destination polls none fs src
      = (.normal .copied,
         copy2 (if (fs (mapPath source destination src).dropLast).isSome then fs
                else mkdirp fs (mapPath source destination src).dropLast)
           src (mapPath source destination src)) := by
  simp [on_created, hsrc, hdst, hst]

/-- Claim C2: for every creation event of a regular file whose mapped
destination path already exists, the handler is a no-op — outcome
`skippedAlreadyExists`, no exception, and the filesystem (including the
existing destination entry) completely unchanged. -/
theorem claim_C2 (source destination : FsPath) (polls : Nat → PollResult)
    (copyFail : Option ExcKind) (fs : FS) (src : FsPath)
    (c : List Nat) (t m : Nat)
    (hsrc : fs src = some (.file c t m))
    (hdst : (fs (mapPath source destination src)).isSome) :
    on_created source destination polls copyFail fs src
      = (.normal .skippedAlreadyExists, fs) := by
  simp [on_created, hsrc, hdst]

/-- Claim C2, witness: with `d/f` pre-existing, creating `s/f` skips and
leaves the filesystem untouched. -/
theorem claim_C2_witness :
    dupFs ["s", "f"] = some (.file [104, 105] 10 420) ∧
    (dupFs (mapPath ["s"] ["d"] ["s", "f"])).isSome ∧
    on_created ["s"] ["d"] zeroSizePolls none dupFs ["s", "f"]
      = (.normal .skippedAlreadyExists, dupFs) :=
  ⟨by decide, by decide,
    claim_C2 ["s"] ["d"] zeroSizePolls none dupFs ["s", "f"] [104, 105] 10 420
      (by decide) (by decide)⟩

/-- Claim C3, counterexample: a creation event for directory `s/sub` leaves
the mapped destination `d/sub` absent and the filesystem unchanged — the
directory is not mirrored, refuting the claim; the source ignores any event
whose path is not a regular file (`if src.is_file():` has no else). -/
theorem claim_C3_counterexample :
    demoFs ["s", "sub"] = some .dir ∧
    mapPath ["s"] ["d"] ["s", "sub"] = ["d", "sub"] ∧
    (on_created ["s"] ["d"] zeroSizePolls none demoFs ["s", "sub"]).2 ["d", "sub"]
      = none ∧
    (on_created ["s"] ["d"] zeroSizePolls none demoFs ["s", "sub"]).1
      = .normal .ignored := by decide

/-- Claim C3, amended: for every creation event whose source entry is a
directory, the handler ignores the event entirely — no destination entry is
created, the filesystem is unchanged, and the completion detector is not
invoked (the result does not depend on `polls`). -/
theorem claim_C3 (source destination : FsPath) (polls : Nat → PollResult)
    (copyFail : Option ExcKind) (fs : FS) (src : FsPath)
    (hdir : fs src = some .dir) :
    on_created source destination polls copyFail fs src
      = (.normal .ignored, fs) := by
  simp [on_created, hdir]

/-- Claim C3, witness: the directory event for `s/sub` is ignored with the
filesystem returned unchanged. -/
theorem claim_C3_witness :
    demoFs ["s", "sub"] = some .dir ∧
    on_created ["s"] ["d"] zeroSizePolls none demoFs ["s", "sub"]
      = (.normal .ignored, demoFs) :=
  ⟨by decide,
    claim_C3 ["s"] ["d"] zeroSizePolls none demoFs ["s", "sub"] (by decide)⟩


/-- A file whose polls always fail never stabilizes. -/
theorem allErrPolls_neverStable : NeverStable allErrPolls :=
  fun _ _ h => nomatch h

/-- Claim C4, counterexample: a file whose observed size grows strictly on
every poll, forever — its size keeps changing past any `maxWait` — but whose
first observed size is `0`.  Because the baseline `file_size_old` is
initialised to `0`, the wait returns Stable on the first poll (one read, no
sleep) instead of TimedOut, the copy is performed, and the (partial) file
appears at the destination — refuting both "the completion wait returns
TimedOut" and "no copy is performed, so no partial file appears at the
destination". -/
theorem claim_C4_counterexample :
    (∀ i j, i < j → ∀ u v, growPolls i = .ok u → growPolls j = .ok v → u < v) ∧
    (awaitStable growPolls 1 60).1 = .stable ∧
    (awaitStable growPolls 1 60).2.reads = 1 ∧
    (awaitStable growPolls 1 60).2.sleeps = 0 ∧
    (on_created ["s"] ["d"] growPolls none demoFs ["s", "f"]).1
      = .normal .copied ∧
    (on_created ["s"] ["d"] growPolls none demoFs ["s", "f"]).2 ["d", "f"]
      = some (.file [104, 105] 10 420) := by
  refine ⟨?_, by decide, by decide, by decide, by decide, by decide⟩
  intro i j hij u v hu hv
  simp [growPolls] at hu hv
  omega

/-- Claim C4, amended: for every file that never stabilizes — every
successful size read differs from the baseline in force, which is the
previous successful read or the initial `file_size_old = 0`, so files whose
first observed size is `0` are excluded — or that keeps failing to open,
the wait returns TimedOut at an elapsed time in
`(maxWait, maxWait + pollInterval]` — never earlier than `maxWait`,
never more than one poll interval later — and the handler performs no copy:
outcome `skippedTimedOut` and no entry at the destination path. -/
theorem claim_C4 (polls : Nat → PollResult) (p W : Nat)
    (source destination : FsPath) (fs : FS) (src : FsPath)
    (c : List Nat) (t m : Nat) (copyFail : Option ExcKind)
    (hp : 0 < p) (hns : NeverStable polls)
    (hsrc : fs src = some (.file c t m))
    (hdst : fs (mapPath source destination src) = none)
    (hne : mapPath source destination src ≠ []) :
    ((awaitStable polls p W).1 = .timedOut ∧
      W < (awaitStable polls p W).2.time ∧
      (awaitStable polls p W).2.time ≤ W + p) ∧
    (on_created source destination polls copyFail fs src).1
      = .normal .skippedTimedOut ∧
    (on_created source destination polls copyFail fs src).2
      (mapPath source destination src) = none := by
  have htoPW : (awaitStable polls p W).1 = .timedOut :=
    awaitStable_neverStable polls p W hns
  have hto : (awaitStable polls 1 60).1 = .timedOut :=
    awaitStable_neverStable polls 1 60 hns
  obtain ⟨hb1, hb2, _, _, _⟩ := awaitStable_timedOut_spec polls p W hp htoPW
  rw [on_created_timeout_eq source destination polls copyFail fs src c t m hsrc hdst hto]
  refine ⟨⟨htoPW, hb1, hb2⟩, rfl, ?_⟩
  by_cases hpe : (fs (mapPath source destination src).dropLast).isSome
  · simp [hpe, hdst]
  · simp [hpe, mkdirp_outside fs _ _ (not_prefix_dropLast hne), hdst]

/-- Claim C4, witness: a file whose polls always fail times out at elapsed
time 61 with `maxWait = 60`, `pollInterval = 1`, and nothing appears at the
destination path. -/
theorem claim_C4_witness :
    (0 < 1 ∧ NeverStable allErrPolls ∧
      demoFs ["s", "f"] = some (.file [104, 105] 10 420) ∧
      demoFs (mapPath ["s"] ["d2"] ["s", "f"]) = none ∧
      mapPath ["s"] ["d2"] ["s", "f"] ≠ []) ∧
    ((awaitStable allErrPolls 1 60).1 = .timedOut ∧
      60 < (awaitStable allErrPolls 1 60).2.time ∧
      (awaitStable allErrPolls 1 60).2.time ≤ 60 + 1) ∧
    (on_created ["s"] ["d2"] allErrPolls none demoFs ["s", "f"]).1
      = .normal .skippedTimedOut ∧
    (on_created ["s"] ["d2"] allErrPolls none demoFs ["s", "f"]).2
      (mapPath ["s"] ["d2"] ["s", "f"]) = none :=
  ⟨⟨by decide, allErrPolls_neverStable, by decide, by decide, by decide⟩,
    claim_C4 allErrPolls 1 60 ["s"] ["d2"] demoFs ["s", "f"] [104, 105] 10 420 none
      (by decide) allErrPolls_neverStable (by decide) (by decide) (by decide)⟩

/-- Claim C6, counterexample: a `PermissionError` during the copy step
(destination unwritable) escapes the handler instead of yielding a
`failed` outcome — the source catches only `FileNotFoundError` — refuting
"no exception escapes the event handler for any such failure". -/
theorem claim_C6_counterexample :
    demoFs ["s", "f"] = some (.file [104, 105] 10 420) ∧
    demoFs (mapPath ["s"] ["d"] ["s", "f"]) = none ∧
    (on_created ["s"] ["d"] zeroSizePolls (some .permission) demoFs ["s", "f"]).1
      = .raised .permission ∧
    (on_created ["s"] ["d"] zeroSizePolls (some .permission) demoFs ["s", "f"]).1
      ≠ .normal (.failed .permission) := by decide

/-- Claim C6, amended: only a `FileNotFoundError` during the copy (source
vanished) is caught and logged, the event being dropped with outcome
`failed`; any other I/O failure (destination unwritable, disk full)
propagates out of the handler as an exception. -/
theorem claim_C6 (source destination : FsPath) (polls : Nat → PollResult)
    (fs : FS) (src : FsPath) (c : List Nat) (t m : Nat) (e : ExcKind)
    (hsrc : fs src = some (.file c t m))
    (hdst : fs (mapPath source destination src) = none)
    (hst : (awaitStable polls 1 60).1 = .stable) :
    (on_created source destination polls (some .fileNotFound) fs src).1
      = .normal (.failed .fileNotFound) ∧
    (e ≠ .fileNotFound →
      (on_created source destination polls (some e) fs src).1 = .raised e) := by
  constructor
  · simp [on_created, hsrc, hdst, hst]
  · intro hnefe
    cases e with
    | fileNotFound => exact absurd rfl hnefe
    | permission => simp [on_created, hsrc, hdst, hst]
    | diskFull => simp [on_created, hsrc, hdst, hst]

/-- Claim C6, witness: with a stable source file and absent destination,
`FileNotFoundError` is caught while a disk-full error escapes. -/
theorem claim_C6_witness :
    (demoFs ["s", "f"] = some (.file [104, 105] 10 420) ∧
      demoFs (mapPath ["s"] ["d"] ["s", "f"]) = none ∧
      (awaitStable zeroSizePolls 1 60).1 = .stable) ∧
    (on_created ["s"] ["d"] zeroSizePolls (some .fileNotFound) demoFs ["s", "f"]).1
      = .normal (.failed .fileNotFound) ∧
    (ExcKind.diskFull ≠ ExcKind.fileNotFound →
      (on_created ["s"] ["d"] zeroSizePolls (some .diskFull) demoFs ["s", "f"]).1
        = .raised .diskFull) :=
  ⟨⟨by decide, by decide, by decide⟩,
    claim_C6 ["s"] ["d"] zeroSizePolls demoFs ["s", "f"] [104, 105] 10 420 .diskFull
      (by decide) (by decide) (by decide)⟩


/-- Claim C7: transient source-access errors during completion polling are
treated as "still changing": every failed poll logs a warning and sleeps one
poll interval, with that time counted against `maxWait`; when the errors
persist the wait times out within `(maxWait, maxWait + pollInterval]`, the
event is surfaced as `skippedTimedOut` with no copy, and no exception
escapes. -/
theorem claim_C7 (polls : Nat → PollResult) (p W : Nat)
    (source destination : FsPath) (fs : FS) (src : FsPath)
    (c : List Nat) (t m : Nat) (copyFail : Option ExcKind)
    (hp : 0 < p) (herr : ∀ n, ∃ e, polls n = .err e)
    (hsrc : fs src = some (.file c t m))
    (hdst : fs (mapPath source destination src) = none)
    (hne : mapPath source destination src ≠ []) :
    ((awaitStable polls p W).1 = .timedOut ∧
      W < (awaitStable polls p W).2.time ∧
      (awaitStable polls p W).2.time ≤ W + p ∧
      (awaitStable polls p W).2.warnLogs = (awaitStable polls p W).2.idx ∧
      (awaitStable polls p W).2.sleeps = (awaitStable polls p W).2.idx ∧
      1 ≤ (awaitStable polls p W).2.warnLogs) ∧
    (on_created source destination polls copyFail fs src).1
      = .normal .skippedTimedOut ∧
    (on_created source destination polls copyFail fs src).2
      (mapPath source destination src) = none := by
  have hns : NeverStable polls := by
    intro n s h
    obtain ⟨e, he⟩ := herr n
    rw [he] at h
    exact PollResult.noConfusion h
  have htoPW : (awaitStable polls p W).1 = .timedOut :=
    awaitStable_neverStable polls p W hns
  have hto : (awaitStable polls 1 60).1 = .timedOut :=
    awaitStable_neverStable polls 1 60 hns
  obtain ⟨hb1, hb2, hb3, hb4, hb5⟩ := awaitStable_timedOut_spec polls p W hp htoPW
  have hwl : (awaitStable polls p W).2.warnLogs = (awaitStable polls p W).2.idx := by
    rw [hb5, countErr_all polls herr]
  have hidx : 1 ≤ (awaitStable polls p W).2.idx := by
    rcases Nat.eq_zero_or_pos (awaitStable polls p W).2.idx with h0 | h1
    · rw [h0] at hb3
      simp at hb3
      omega
    · exact h1
  rw [on_created_timeout_eq source destination polls copyFail fs src c t m hsrc hdst hto]
  refine ⟨⟨htoPW, hb1, hb2, hwl, hb4, by omega⟩, rfl, ?_⟩
  by_cases hpe : (fs (mapPath source destination src).dropLast).isSome
  · simp [hpe, hdst]
  · simp [hpe, mkdirp_outside fs _ _ (not_prefix_dropLast hne), hdst]

/-- Claim C7, witness: a file whose polls always raise `PermissionError`
retries with warnings until timing out, and the handler skips the copy. -/
theorem claim_C7_witness :
    (0 < 1 ∧ (∀ n, ∃ e, allErrPolls n = PollResult.err e) ∧
      demoFs ["s", "f"] = some (.file [104, 105] 10 420) ∧
      demoFs (mapPath ["s"] ["d2"] ["s", "f"]) = none ∧
      mapPath ["s"] ["d2"] ["s", "f"] ≠ []) ∧
    ((awaitStable allErrPolls 1 60).1 = .timedOut ∧
      60 < (awaitStable allErrPolls 1 60).2.time ∧
      (awaitStable allErrPolls 1 60).2.time ≤ 60 + 1 ∧
      (awaitStable allErrPolls 1 60).2.warnLogs = (awaitStable allErrPolls 1 60).2.idx ∧
      (awaitStable allErrPolls 1 60).2.sleeps = (awaitStable allErrPolls 1 60).2.idx ∧
      1 ≤ (awaitStable allErrPolls 1 60).2.warnLogs) ∧
    (on_created ["s"] ["d2"] allErrPolls none demoFs ["s", "f"]).1
      = .normal .skippedTimedOut ∧
    (on_created ["s"] ["d2"] allErrPolls none demoFs ["s", "f"]).2
      (mapPath ["s"] ["d2"] ["s", "f"]) = none :=
  ⟨⟨by decide, fun n => ⟨.permission, rfl⟩, by decide, by decide, by decide⟩,
    claim_C7 allErrPolls 1 60 ["s"] ["d2"] demoFs ["s", "f"] [104, 105] 10 420 none
      (by decide) (fun n => ⟨.permission, rfl⟩) (by decide) (by decide) (by decide)⟩


/-- Claim C9: the handler creates the destination's missing parent
directories before the stabilization wait, so when the wait times out the
newly created destination directories remain even though the file itself is
never copied. -/
theorem claim_C9 (source destination : FsPath) (polls : Nat → PollResult)
    (copyFail : Option ExcKind) (fs : FS) (src : FsPath)
    (c : List Nat) (t m : Nat)
    (hsrc : fs src = some (.file c t m))
    (hdst : fs (mapPath source destination src) = none)
    (hpar : fs (mapPath source destination src).dropLast = none)
    (hne : mapPath source destination src ≠ [])
    (hto : (awaitStable polls 1 60).1 = .timedOut) :
    (on_created source destination polls copyFail fs src).1
      = .normal .skippedTimedOut ∧
    (on_created source destination polls copyFail fs src).2
      (mapPath source destination src).dropLast = some .dir ∧
    (on_created source destination polls copyFail fs src).2
      (mapPath source destination src) = none := by
  rw [on_created_timeout_eq source destination polls copyFail fs src c t m hsrc hdst hto]
  refine ⟨rfl, ?_, ?_⟩
  · simp [hpar, mkdirp]
  · simp [hpar, mkdirp_outside fs _ _ (not_prefix_dropLast hne), hdst]

/-- Claim C9, witness: for a never-stabilizing `s/f` mapped under the
absent root `d2`, the timed-out event leaves `d2` created as a directory
and `d2/f` absent. -/
theorem claim_C9_witness :
    (demoFs ["s", "f"] = some (.file [104, 105] 10 420) ∧
      demoFs (mapPath ["s"] ["d2"] ["s", "f"]) = none ∧
      demoFs (mapPath ["s"] ["d2"] ["s", "f"]).dropLast = none ∧
      mapPath ["s"] ["d2"] ["s", "f"] ≠ [] ∧
      (awaitStable allErrPolls 1 60).1 = .timedOut) ∧
    (on_created ["s"] ["d2"] allErrPolls none demoFs ["s", "f"]).1
      = .normal .skippedTimedOut ∧
    (on_created ["s"] ["d2"] allErrPolls none demoFs ["s", "f"]).2
      (mapPath ["s"] ["d2"] ["s", "f"]).dropLast = some .dir ∧
    (on_created ["s"] ["d2"] allErrPolls none demoFs ["s", "f"]).2
      (mapPath ["s"] ["d2"] ["s", "f"]) = none :=
  ⟨⟨by decide, by decide, by decide, by decide, by decide⟩,
    claim_C9 ["s"] ["d2"] allErrPolls none demoFs ["s", "f"] [104, 105] 10 420
      (by decide) (by decide) (by decide) (by decide) (by decide)⟩

/-- Claim C10: the handler never modifies the source entry: for every
creation event, every configuration and every outcome (skip, timeout, copy,
copy failure, escaped exception), the filesystem after the event maps the
event's source path to exactly its previous entry — bytes, modification
time and permission bits unchanged. -/
theorem claim_C10 (source destination : FsPath) (polls : Nat → PollResult)
    (copyFail : Option ExcKind) (fs : FS) (src : FsPath) :
    (on_created source destination polls copyFail fs src).2 src = fs src := by
  cases hsrc : fs src with
  | none => simp [on_created, hsrc]
  | some e =>
    cases e with
    | dir => simp [on_created, hsrc]
    | file c t m =>
      by_cases hdst : (fs (mapPath source destination src)).isSome
      · simp [on_created, hsrc, hdst]
      · have hfs1 : (if (fs (mapPath source destination src).dropLast).isSome then fs
            else mkdirp fs (mapPath source destination src).dropLast) src = fs src := by
          by_cases hpe : (fs (mapPath source destination src).dropLast).isSome
          · simp [hpe]
          · simp [hpe, mkdirp_of_some fs _ src _ hsrc, hsrc]
        cases hst : (awaitStable polls 1 60).1 with
        | timedOut => simp [on_created, hsrc, hdst, hst, hfs1]
        | stable =>
          cases copyFail with
          | none => simp [on_created, hsrc, hdst, hst, copy2_self, hfs1]
          | some e2 =>
            cases e2 <;> simp [on_created, hsrc, hdst, hst, hfs1]


/-- Claim C8: for every regular-file copy actually performed (destination
absent, wait stable, no I/O failure), the destination ends up holding
exactly the source's bytes, modification time and permission bits, the
destination's parent exists afterwards, and if the parent was missing then
every missing parent directory was created first. -/
theorem claim_C8 (source destination : FsPath) (polls : Nat → PollResult)
    (fs : FS) (src : FsPath) (c : List Nat) (t m : Nat)
    (hsrc : fs src = some (.file c t m))
    (hdst : fs (mapPath source destination src) = none)
    (hne : mapPath source destination src ≠ [])
    (hst : (awaitStable polls 1 60).1 = .stable) :
    (on_created source destination polls none fs src).1 = .normal .copied ∧
    (on_created source destination polls none fs src).2
      (mapPath source destination src) = some (.file c t m) ∧
    ((on_created source destination polls none fs src).2
      (mapPath source destination src).dropLast).isSome ∧
    (fs (mapPath source destination src).dropLast = none →
      ∀ q, q <+: (mapPath source destination src).dropLast →
        ((on_created source destination polls none fs src).2 q).isSome) := by
  have hPd : (mapPath source destination src).dropLast ≠ mapPath source destination src := by
    intro h
    have h1 : (mapPath source destination src).dropLast.length
        = (mapPath source destination src).length - 1 := List.length_dropLast _
    have h2 : 0 < (mapPath source destination src).length := List.length_pos.mpr hne
    rw [h] at h1
    omega
  rw [on_created_stable_copy source destination polls fs src c t m hsrc hdst hst]
  refine ⟨rfl, ?_, ?_, ?_⟩
  · simp only [Prod.snd]
    rw [copy2_at_dst]
    by_cases hpe : (fs (mapPath source destination src).dropLast).isSome
    · simp [hpe, hsrc]
    · simp [hpe, mkdirp_of_some fs _ src _ hsrc, hsrc]
  · simp only [Prod.snd]
    rw [copy2_at_other _ _ _ _ hPd]
    by_cases hpe : (fs (mapPath source destination src).dropLast).isSome
    · simp [hpe]
    · simp only [hpe, Bool.false_eq_true, if_false, ite_false]
      exact mkdirp_prefix_isSome fs _ _ (List.prefix_refl _)
  · intro hpar q hq
    have hqd : q ≠ mapPath source destination src := by
      intro h
      exact not_prefix_dropLast hne (h ▸ hq)
    simp only [Prod.snd]
    rw [copy2_at_other _ _ _ _ hqd]
    simp only [hpar, Option.isSome_none, Bool.false_eq_true, if_false, ite_false]
    exact mkdirp_prefix_isSome fs _ _ hq

/-- Claim C8, witness: copying `s/f` under the absent root `d2/e` creates
the parents and reproduces the file's content and metadata. -/
theorem claim_C8_witness :
    (demoFs ["s", "f"] = some (.file [104, 105] 10 420) ∧
      demoFs (mapPath ["s"] ["d2", "e"] ["s", "f"]) = none ∧
      mapPath ["s"] ["d2", "e"] ["s", "f"] ≠ [] ∧
      (awaitStable constPolls 1 60).1 = .stable) ∧
    (on_created ["s"] ["d2", "e"] constPolls none demoFs ["s", "f"]).1
      = .normal .copied ∧
    (on_created ["s"] ["d2", "e"] constPolls none demoFs ["s", "f"]).2
      (mapPath ["s"] ["d2", "e"] ["s", "f"]) = some (.file [104, 105] 10 420) ∧
    ((on_created ["s"] ["d2", "e"] constPolls none demoFs ["s", "f"]).2
      (mapPath ["s"] ["d2", "e"] ["s", "f"]).dropLast).isSome ∧
    (demoFs (mapPath ["s"] ["d2", "e"] ["s", "f"]).dropLast = none →
      ∀ q, q <+: (mapPath ["s"] ["d2", "e"] ["s", "f"]).dropLast →
        ((on_created ["s"] ["d2", "e"] constPolls none demoFs ["s", "f"]).2 q).isSome) :=
  ⟨⟨by decide, by decide, by decide, by decide⟩,
    claim_C8 ["s"] ["d2", "e"] constPolls demoFs ["s", "f"] [104, 105] 10 420
      (by decide) (by decide) (by decide) (by decide)⟩

/-- Claim C5: the destination-path construction is a pure function of the
three paths (it takes no filesystem argument), is injective on source paths
under the watch root, and is structure-preserving:
`map(watchRoot, mirrorRoot, watchRoot/a/b) = mirrorRoot/a/b`. -/
theorem claim_C5 (watchRoot mirrorRoot : FsPath) (p q tail : FsPath)
    (hp : watchRoot <+: p) (hq : watchRoot <+: q) :
    (mapPath watchRoot mirrorRoot p = mapPath watchRoot mirrorRoot q → p = q) ∧
    mapPath watchRoot mirrorRoot (watchRoot ++ tail) = mirrorRoot ++ tail := by
  constructor
  · intro h
    obtain ⟨tp, rfl⟩ := hp
    obtain ⟨tq, rfl⟩ := hq
    simp only [mapPath, List.drop_left] at h
    simp only [List.append_cancel_left_eq] at h
    rw [h]
  · simp [mapPath, List.drop_left]

/-- Claim C5, witness: concrete roots and paths discharging both parts. -/
theorem claim_C5_witness :
    (["w"] <+: ["w", "a"] ∧ ["w"] <+: ["w", "b"]) ∧
    (mapPath ["w"] ["m"] ["w", "a"] = mapPath ["w"] ["m"] ["w", "b"] →
      (["w", "a"] : FsPath) = ["w", "b"]) ∧
    mapPath ["w"] ["m"] (["w"] ++ ["a", "b"]) = ["m"] ++ ["a", "b"] :=
  ⟨⟨by decide, by decide⟩,
    claim_C5 ["w"] ["m"] ["w", "a"] ["w", "b"] ["a", "b"] (by decide) (by decide)⟩

end BackupData
